import Mathlib

/-!
Shallow embedding of `spots/management/commands/seed.py` (TripWay seeder).

The seeder is a single linear pass over paginated search responses.  Pure
helpers (`to_decimal`, `trim`, `pick_city`) are embedded as Lean functions;
the `handle` loop is embedded as explicit state passing over a response
stream, recording the issued requests, the taken delays, the database rows
and the error lines, so that the observable behaviour of a run is a value.
-/

namespace Seed

/-- A Python value as seen by the helper functions: the fields pulled out of
the JSON payload are `None`, strings or numbers, and the helpers branch on
Python truthiness before coercing with `str`. -/
inductive PyVal where
  | none
  | str (s : String)
  | int (n : Int)
  deriving DecidableEq, Repr

/-- Python truthiness of a `PyVal`: `None` and `""` and `0` are falsy. -/
def PyVal.truthy : PyVal → Bool
  | .none => false
  | .str s => s ≠ ""
  | .int n => n ≠ 0

/-- Python `str(val)`. -/
def pyStr : PyVal → String
  | .none => "None"
  | .str s => s
  | .int n => toString n

/-- Python `a or b` on these values: `a` when truthy, else `b`. -/
def pyOr (a b : PyVal) : PyVal :=
  if a.truthy then a else b

/-- Embed an optional string (a `dict.get` result) as a `PyVal`. -/
def optStrVal : Option String → PyVal
  | Option.none => PyVal.none
  | Option.some s => PyVal.str s

/-- Truthiness of a `dict.get` string result: present and non-empty. -/
def truthyStr : Option String → Bool
  | Option.none => false
  | Option.some s => s ≠ ""

/-- Python `a or b` where both sides are `dict.get` string results. -/
def pyOrStr (a b : Option String) : Option String :=
  if truthyStr a then a else b

/-!  `decimal.Decimal` construction from a string.  A parsed decimal is a
sign/coefficient/exponent triple or one of the special values; the parser
follows the grammar accepted by the `Decimal` constructor (optional
surrounding whitespace, optional sign, plain or dotted digit runs with an
optional exponent, `Infinity`/`Inf`, `NaN`/`sNaN` with an optional digit
diagnostic), returning `none` exactly where the constructor raises. -/

/-- A finite decimal number: sign, coefficient digits, exponent. -/
structure DecNum where
  sign : Bool
  coeff : List Nat
  exp : Int
  deriving DecidableEq, Repr

/-- The value carried by a Python `Decimal`. -/
inductive PyDecimal where
  | finite (d : DecNum)
  | infinite (sign : Bool)
  | nan (signaling : Bool) (sign : Bool) (diag : List Nat)
  deriving DecidableEq, Repr

/-- Decimal digit test on a character. -/
def isDig (c : Char) : Bool := '0' ≤ c && c ≤ '9'

/-- Value of a decimal digit character. -/
def digVal (c : Char) : Nat := c.toNat - '0'.toNat

/-- Split a leading run of digits from a character list. -/
def takeDigits : List Char → List Nat × List Char
  | [] => ([], [])
  | c :: cs =>
    if isDig c then
      let (ds, rest) := takeDigits cs
      (digVal c :: ds, rest)
    else ([], c :: cs)

/-- Parse the exponent part `('e'|'E') [sign] digits`; `[]` means exponent 0. -/
def parseExpPart : List Char → Option Int
  | [] => some 0
  | c :: cs =>
    if c = 'e' || c = 'E' then
      let (sign, cs) := match cs with
        | '+' :: t => (false, t)
        | '-' :: t => (true, t)
        | t => (false, t)
      match takeDigits cs with
      | (_, _ :: _) => Option.none
      | ([], []) => Option.none
      | (ds, []) =>
        let v : Int := ds.foldl (fun a d => a * 10 + (d : Int)) 0
        some (if sign then -v else v)
    else Option.none

/-- Parse the mantissa: `digits ['.' digits]` or `'.' digits`; returns the
coefficient digits and the number of fractional digits. -/
def parseMantissa (cs : List Char) : Option (List Nat × Nat) :=
  match takeDigits cs with
  | (ip, rest) =>
    match rest with
    | [] => if ip = [] then Option.none else some (ip, 0)
    | '.' :: fr =>
      match takeDigits fr with
      | (fp, []) =>
        if ip = [] && fp = [] then Option.none else some (ip ++ fp, fp.length)
      | (_, _ :: _) => Option.none
    | _ => Option.none

/-- Parse an unsigned numeric value `decimal-part [exponent-part]`. -/
def parseNumeric (sign : Bool) (cs : List Char) : Option PyDecimal :=
  let (mant, expPart) := cs.span (fun c => c ≠ 'e' && c ≠ 'E')
  match parseMantissa mant, parseExpPart expPart with
  | some (coeff, fracLen), some e =>
    some (PyDecimal.finite ⟨sign, coeff, e - (fracLen : Int)⟩)
  | _, _ => Option.none

/-- Parse the body after the optional sign: special values or a numeric. -/
def parseUnsigned (sign : Bool) (cs : List Char) : Option PyDecimal :=
  let l := cs.map Char.toLower
  if l = "inf".toList || l = "infinity".toList then
    some (PyDecimal.infinite sign)
  else if l.take 3 = "nan".toList && (l.drop 3).all isDig then
    some (PyDecimal.nan false sign ((l.drop 3).map digVal))
  else if l.take 4 = "snan".toList && (l.drop 4).all isDig then
    some (PyDecimal.nan true sign ((l.drop 4).map digVal))
  else
    parseNumeric sign cs

/-- `decimal.Decimal(s)` on a string: strip surrounding whitespace, read an
optional sign, then the numeric or special body; `none` where the
constructor raises `InvalidOperation`. -/
def decimalOfString (s : String) : Option PyDecimal :=
  let cs := (s.toList.dropWhile Char.isWhitespace).reverse
    |>.dropWhile Char.isWhitespace |>.reverse
  match cs with
  | '+' :: t => parseUnsigned false t
  | '-' :: t => parseUnsigned true t
  | t => parseUnsigned false t

/-- `to_decimal(val)`: `Decimal(str(val))` unless `val is None`, with every
parse failure absorbed to `None`. -/
def to_decimal (val : PyVal) : Option PyDecimal :=
  match val with
  | PyVal.none => Option.none
  | v => decimalOfString (pyStr v)

/-- `trim(s, limit)`: `None` on falsy input, else `str(s)` cut to `limit`
characters when longer. -/
def trim (s : PyVal) (limit : Nat) : Option String :=
  if ¬ s.truthy then Option.none
  else
    let t := pyStr s
    some (if t.length > limit then t.take limit else t)

/-- One entry of a place's `addressComponents` list. -/
structure AddressComponent where
  types : List String
  longText : Option String
  shortText : Option String
  deriving DecidableEq, Repr

/-- The component's name as the code reads it: `longText or shortText`. -/
def compName (c : AddressComponent) : Option String :=
  pyOrStr c.longText c.shortText

/-- One scan of `pick_city`: first component whose `types` contains `t` and
whose name (`longText or shortText`) is truthy; returns that name. -/
def scanFor (t : String) : List AddressComponent → Option String
  | [] => Option.none
  | c :: rest =>
    if t ∈ c.types && truthyStr (compName c) then compName c
    else scanFor t rest

/-- `pick_city(address_components)`: `None` on a falsy argument, else the
`locality` scan, else the `administrative_area_level_1` scan, else `None`. -/
def pick_city (address_components : Option (List AddressComponent)) :
    Option String :=
  match address_components with
  | Option.none => Option.none
  | some comps =>
    if comps = [] then Option.none
    else
      match scanFor "locality" comps with
      | some n => some n
      | Option.none => scanFor "administrative_area_level_1" comps

/-- One entry of a place's `photos` list. -/
structure Photo where
  name : Option String
  deriving DecidableEq, Repr

/-- A place object from the search payload, holding exactly the fields the
seeder reads.  `Option` marks a field a `dict.get` may miss; the raw string
fields the code feeds to truthiness checks or to `trim` are `PyVal`. -/
structure Place where
  displayName_text : Option String
  formattedAddress : PyVal
  shortFormattedAddress : PyVal
  addressComponents : Option (List AddressComponent)
  location_latitude : PyVal
  location_longitude : PyVal
  nationalPhoneNumber : PyVal
  websiteUri : PyVal
  rating : PyVal
  weekdayDescriptions : Option (List String)
  photos : List Photo
  id : PyVal
  deriving DecidableEq, Repr

/-- A row of `spots_spot` as the seeder writes it. -/
structure Spot where
  name : String
  address : Option String
  city : Option String
  latitude : Option PyDecimal
  longitude : Option PyDecimal
  phone : Option String
  url : Option String
  rating : PyVal
  place_id : Option String
  opening_hours : Option (List String)
  description : Option String
  photo_url : Option String
  deriving DecidableEq, Repr

/-- The photo media URL template with its two holes filled in. -/
def photoMediaUrl (photo_name api_key : String) : String :=
  "https://places.googleapis.com/v1/" ++ photo_name ++
    "/media?maxHeightPx=800&key=" ++ api_key

/-- `Spot.objects.get_or_create(name=..., defaults=...)` over a row list:
when a row with the name exists it is returned untouched, else the new row
is inserted; the second component is the `created` flag. -/
def get_or_create (db : List Spot) (s : Spot) : List Spot × Bool :=
  if db.any (fun r => r.name = s.name) then (db, false)
  else (db ++ [s], true)

/-- The mutable state of a run: rows written plus the two counters. -/
structure SeedState where
  db : List Spot
  saved : Nat
  skipped : Nat
  deriving DecidableEq, Repr

/-- The display name string: `(p.get("displayName") or {}).get("text") or ""`. -/
def placeName (p : Place) : String :=
  match p.displayName_text with
  | some s => s
  | Option.none => ""

/-- The row built for a place with (already truncated) name `name`. -/
def buildSpot (api_key : String) (p : Place) (name : String) : Spot :=
  let address := trim (pyOr (pyOr p.formattedAddress p.shortFormattedAddress)
    PyVal.none) 255
  let city := trim (pyOr (optStrVal (pick_city p.addressComponents))
    PyVal.none) 100
  let lat := to_decimal p.location_latitude
  let lng := to_decimal p.location_longitude
  let phone := trim p.nationalPhoneNumber 20
  let website := trim p.websiteUri 500
  let opening_hours := match p.weekdayDescriptions with
    | some l => if l = [] then Option.none else some l
    | Option.none => Option.none
  let photo_url := match p.photos with
    | [] => Option.none
    | ph :: _ =>
      match ph.name with
      | some pn =>
        if pn = "" then Option.none
        else trim (PyVal.str (photoMediaUrl pn api_key)) 500
      | Option.none => Option.none
  let place_id := trim p.id 255
  { name := name, address := address, city := city, latitude := lat,
    longitude := lng, phone := phone, url := website, rating := p.rating,
    place_id := place_id, opening_hours := opening_hours,
    description := Option.none, photo_url := photo_url }

/-- The inline name truncation: `name[:1000]` when over 1000 characters. -/
def truncName (name : String) : String :=
  if name.length > 1000 then name.take 1000 else name

/-- The body of the per-place loop: skip on empty name, truncate the name
to 1000 characters, build the row, `get_or_create`, bump `saved` on an
actual insertion. -/
def processPlace (api_key : String) (st : SeedState) (p : Place) : SeedState :=
  let name := placeName p
  if name = "" then { st with skipped := st.skipped + 1 }
  else
    let name := truncName name
    let (db, created) := get_or_create st.db (buildSpot api_key p name)
    { st with db := db, saved := if created then st.saved + 1 else st.saved }

/-- One search response: HTTP status, raw body text, and the two payload
fields the loop reads (`places`, with `None`/missing collapsing to the
empty list by `payload.get("places", []) or []`, and `nextPageToken`). -/
structure HttpResponse where
  status_code : Nat
  text : String
  places : List Place
  nextPageToken : Option String
  deriving DecidableEq, Repr

/-- The per-call observable part of the request body: the continuation
token, when one has been written into the body. -/
structure SearchRequest where
  pageToken : Option String
  deriving DecidableEq, Repr

/-- The observable outcome of the page loop. -/
structure LoopOut where
  requests : List SearchRequest
  sleeps : Nat
  state : SeedState
  errors : List String
  deriving DecidableEq, Repr

/-- The page loop.  `remaining` is the iteration budget `max(1, pages)`;
`idx` numbers the HTTP calls so `net idx` is the response to call `idx`;
`bodyToken` is the `pageToken` currently written in the request body and
`token` the `next_page_token` variable.  A non-200 response appends the
error line and breaks; a truthy continuation token costs one 2-unit sleep
before the next iteration. -/
def seedLoop (api_key : String) (net : Nat → HttpResponse) :
    Nat → Nat → Option String → Option String → SeedState → LoopOut
  | 0, _, _, _, st => ⟨[], 0, st, []⟩
  | n + 1, idx, bodyToken, token, st =>
    let bodyToken := if truthyStr token then token else bodyToken
    let resp := net idx
    if resp.status_code ≠ 200 then
      ⟨[⟨bodyToken⟩], 0, st,
        ["API 錯誤 " ++ toString resp.status_code ++ ": " ++ resp.text.take 300]⟩
    else
      let st := resp.places.foldl (processPlace api_key) st
      let token := resp.nextPageToken
      if ¬ truthyStr token then ⟨[⟨bodyToken⟩], 0, st, []⟩
      else
        let rest := seedLoop api_key net n (idx + 1) bodyToken token st
        ⟨⟨bodyToken⟩ :: rest.requests, 1 + rest.sleeps, rest.state, rest.errors⟩

/-- The whole observable outcome of `Command.handle`. -/
structure RunResult where
  requests : List SearchRequest
  sleeps : Nat
  db : List Spot
  saved : Nat
  skipped : Nat
  errors : List String
  deriving DecidableEq, Repr

/-- The missing-credential error line. -/
def missingKeyError : String := "缺少 GOOGLE_API_KEY 環境變數"

/-- `Command.handle`: abort on a falsy `GOOGLE_API_KEY`, else run the page
loop for `max(1, pages)` iterations over the response stream `net`,
starting from database `db0`. -/
def handle (api_key : Option String) (pages : Int) (net : Nat → HttpResponse)
    (db0 : List Spot) : RunResult :=
  if ¬ truthyStr api_key then
    ⟨[], 0, db0, 0, 0, [missingKeyError]⟩
  else
    let key := match api_key with
      | some k => k
      | Option.none => ""
    let fuel := (max 1 pages).toNat
    let out := seedLoop key net fuel 0 Option.none Option.none ⟨db0, 0, 0⟩
    ⟨out.requests, out.sleeps, out.state.db, out.state.saved,
      out.state.skipped, out.errors⟩

/-- The places a loop run with budget `n`, starting at call number `idx`,
feeds to the per-place body: each successful page's `places`, chained while
a truthy continuation token keeps the loop alive. -/
def loopPlaces (net : Nat → HttpResponse) : Nat → Nat → List Place
  | 0, _ => []
  | n + 1, idx =>
    let resp := net idx
    if resp.status_code ≠ 200 then []
    else
      resp.places ++
        (if truthyStr resp.nextPageToken then loopPlaces net n (idx + 1) else [])

/-- The state a loop run reaches is the fold of the per-place body over the
places of its successful pages. -/
theorem seedLoop_state (key : String) (net : Nat → HttpResponse) :
    ∀ (n idx : Nat) (bt tok : Option String) (st : SeedState),
    (seedLoop key net n idx bt tok st).state =
      (loopPlaces net n idx).foldl (processPlace key) st := by
  intro n
  induction n with
  | zero => intro idx bt tok st; rfl
  | succ n ih =>
    intro idx bt tok st
    rw [seedLoop, loopPlaces]
    by_cases h : (net idx).status_code = 200
    · by_cases ht : truthyStr (net idx).nextPageToken
      · simp [h, ht, ih, List.foldl_append]
      · simp [h, ht]
    · simp [h]

/-- The name written into a built row is the name handed to the builder. -/
theorem buildSpot_name (key : String) (p : Place) (n : String) :
    (buildSpot key p n).name = n := rfl

/-- `get_or_create` on a present key returns the rows untouched, not created. -/
theorem get_or_create_hit (db : List Spot) (s : Spot)
    (h : db.any (fun r => r.name = s.name) = true) :
    get_or_create db s = (db, false) := by
  simp [get_or_create, h]

/-- `get_or_create` on an absent key appends the row, created. -/
theorem get_or_create_miss (db : List Spot) (s : Spot)
    (h : db.any (fun r => r.name = s.name) = false) :
    get_or_create db s = (db ++ [s], true) := by
  simp [get_or_create, h]

/-- A place with an empty name only bumps the skip counter. -/
theorem processPlace_skip (key : String) (st : SeedState) (p : Place)
    (h : placeName p = "") :
    processPlace key st p = { st with skipped := st.skipped + 1 } := by
  simp [processPlace, h]

/-- A place whose truncated name is already present leaves the state as is. -/
theorem processPlace_existing (key : String) (st : SeedState) (p : Place)
    (hn : placeName p ≠ "")
    (h : st.db.any (fun r => r.name = truncName (placeName p)) = true) :
    processPlace key st p = st := by
  simp [processPlace, hn, get_or_create, buildSpot_name, h]

/-- A place whose truncated name is absent appends its row and bumps `saved`. -/
theorem processPlace_fresh (key : String) (st : SeedState) (p : Place)
    (hn : placeName p ≠ "")
    (h : st.db.any (fun r => r.name = truncName (placeName p)) = false) :
    processPlace key st p =
      { st with db := st.db ++ [buildSpot key p (truncName (placeName p))],
                saved := st.saved + 1 } := by
  simp [processPlace, hn, get_or_create, buildSpot_name, h]

/-- Processing one place only ever appends rows. -/
theorem processPlace_db_append (key : String) (st : SeedState) (p : Place) :
    ∃ l, (processPlace key st p).db = st.db ++ l := by
  by_cases hn : placeName p = ""
  · exact ⟨[], by simp [processPlace_skip key st p hn]⟩
  · by_cases h : st.db.any (fun r => r.name = truncName (placeName p))
    · exact ⟨[], by simp [processPlace_existing key st p hn h]⟩
    · exact ⟨[buildSpot key p (truncName (placeName p))],
        by simp [processPlace_fresh key st p hn (by simpa using h)]⟩

/-- A fold of the per-place body only ever appends rows. -/
theorem foldl_db_append (key : String) :
    ∀ (ps : List Place) (st : SeedState),
    ∃ l, (ps.foldl (processPlace key) st).db = st.db ++ l := by
  intro ps
  induction ps with
  | nil => exact fun st => ⟨[], by simp⟩
  | cons p ps ih =>
    intro st
    obtain ⟨l1, h1⟩ := processPlace_db_append key st p
    obtain ⟨l2, h2⟩ := ih (processPlace key st p)
    exact ⟨l1 ++ l2, by simp [List.foldl_cons, h2, h1]⟩

/-- Row membership survives a fold of the per-place body. -/
theorem foldl_db_mem (key : String) (ps : List Place) (st : SeedState)
    (r : Spot) (h : r ∈ st.db) : r ∈ (ps.foldl (processPlace key) st).db := by
  obtain ⟨l, hl⟩ := foldl_db_append key ps st
  rw [hl]
  exact List.mem_append_left l h

/-- After processing a place with a non-empty name, a row carrying its
truncated name is in the database. -/
theorem processPlace_name_present (key : String) (st : SeedState) (p : Place)
    (hn : placeName p ≠ "") :
    ∃ r ∈ (processPlace key st p).db, r.name = truncName (placeName p) := by
  by_cases h : st.db.any (fun r => r.name = truncName (placeName p))
  · rw [processPlace_existing key st p hn h]
    simpa [List.any_eq_true] using h
  · rw [processPlace_fresh key st p hn (by simpa using h)]
    exact ⟨buildSpot key p (truncName (placeName p)), by simp,
      buildSpot_name key p _⟩

/-- Every place of a fold with a non-empty name leaves a row with its
truncated name in the final database. -/
theorem foldl_processed_present (key : String) :
    ∀ (ps : List Place) (st : SeedState) (p : Place), p ∈ ps →
    placeName p ≠ "" →
    ∃ r ∈ (ps.foldl (processPlace key) st).db,
      r.name = truncName (placeName p) := by
  intro ps
  induction ps with
  | nil => intro st p hp; cases hp
  | cons q ps ih =>
    intro st p hp hn
    rcases List.mem_cons.mp hp with rfl | hp
    · obtain ⟨r, hr, hname⟩ := processPlace_name_present key st p hn
      exact ⟨r, foldl_db_mem key ps _ r hr, hname⟩
    · exact ih (processPlace key st q) p hp hn

/-- When every place of a fold is either nameless or already represented in
the starting database, the fold changes neither the rows nor `saved`. -/
theorem foldl_saturated (key : String) :
    ∀ (ps : List Place) (st : SeedState),
    (∀ p ∈ ps, placeName p = "" ∨
      st.db.any (fun r => r.name = truncName (placeName p)) = true) →
    (ps.foldl (processPlace key) st).db = st.db ∧
      (ps.foldl (processPlace key) st).saved = st.saved := by
  intro ps
  induction ps with
  | nil => intro st _; exact ⟨rfl, rfl⟩
  | cons p ps ih =>
    intro st hall
    have hst' : (processPlace key st p).db = st.db ∧
        (processPlace key st p).saved = st.saved := by
      rcases hall p (List.mem_cons_self p ps) with hn | hpresent
      · rw [processPlace_skip key st p hn]; exact ⟨rfl, rfl⟩
      · by_cases hn : placeName p = ""
        · rw [processPlace_skip key st p hn]; exact ⟨rfl, rfl⟩
        · rw [processPlace_existing key st p hn hpresent]; exact ⟨rfl, rfl⟩
    have hrest := ih (processPlace key st p) (by
      intro q hq
      rcases hall q (List.mem_cons_of_mem p hq) with hqn | hqp
      · exact Or.inl hqn
      · exact Or.inr (hst'.1 ▸ hqp))
    rw [List.foldl_cons]
    exact ⟨hrest.1.trans hst'.1, hrest.2.trans hst'.2⟩

/-- Running the fold a second time over the same places, starting from the
first run's rows with fresh counters, inserts nothing. -/
theorem foldl_idem (key : String) (ps : List Place) (db0 : List Spot) :
    ((ps.foldl (processPlace key)
      ⟨(ps.foldl (processPlace key) ⟨db0, 0, 0⟩).db, 0, 0⟩).db =
        (ps.foldl (processPlace key) ⟨db0, 0, 0⟩).db) ∧
    (ps.foldl (processPlace key)
      ⟨(ps.foldl (processPlace key) ⟨db0, 0, 0⟩).db, 0, 0⟩).saved = 0 := by
  have h := foldl_saturated key ps
    ⟨(ps.foldl (processPlace key) ⟨db0, 0, 0⟩).db, 0, 0⟩ (by
      intro p hp
      by_cases hn : placeName p = ""
      · exact Or.inl hn
      · refine Or.inr ?_
        obtain ⟨r, hr, hname⟩ :=
          foldl_processed_present key ps ⟨db0, 0, 0⟩ p hp hn
        simp only [List.any_eq_true]
        exact ⟨r, hr, by simp [hname]⟩)
  exact ⟨h.1, h.2⟩

/-- Rows present after a fold are either initial rows or rows built from a
processed place with a non-empty name. -/
theorem foldl_rows (key : String) :
    ∀ (ps : List Place) (st : SeedState) (r : Spot),
    r ∈ (ps.foldl (processPlace key) st).db →
    r ∈ st.db ∨ ∃ p ∈ ps, placeName p ≠ "" ∧
      r = buildSpot key p (truncName (placeName p)) := by
  intro ps
  induction ps with
  | nil => intro st r hr; exact Or.inl hr
  | cons p ps ih =>
    intro st r hr
    rcases ih (processPlace key st p) r hr with hr' | ⟨q, hq, hqn, hqr⟩
    · by_cases hn : placeName p = ""
      · rw [processPlace_skip key st p hn] at hr'; exact Or.inl hr'
      · by_cases ha : st.db.any (fun r => r.name = truncName (placeName p))
        · rw [processPlace_existing key st p hn ha] at hr'; exact Or.inl hr'
        · rw [processPlace_fresh key st p hn (by simpa using ha)] at hr'
          rcases List.mem_append.mp hr' with h | h
          · exact Or.inl h
          · exact Or.inr ⟨p, List.mem_cons_self p ps, hn,
              List.mem_singleton.mp h⟩
    · exact Or.inr ⟨q, List.mem_cons_of_mem p hq, hqn, hqr⟩

/-- A string of length zero is the empty string. -/
theorem string_eq_empty_of_length {t : String} (ht : t.length = 0) : t = "" := by
  cases t with
  | mk data =>
    have hd : data = [] := List.length_eq_zero.mp ht
    rw [hd]

/-- Character length of a string prefix. -/
theorem string_length_take (s : String) (n : Nat) :
    (s.take n).length = min n s.length := by
  show (s.take n).data.length = min n s.length
  rw [String.data_take, List.length_take, String.length_data]

/-- The truncated name of a non-empty name is non-empty and at most 1000
characters long. -/
theorem truncName_spec (s : String) (h : s ≠ "") :
    truncName s ≠ "" ∧ (truncName s).length ≤ 1000 := by
  unfold truncName
  split
  · next hgt =>
    constructor
    · intro heq
      have : (s.take 1000).length = 0 := by rw [heq]; rfl
      rw [string_length_take] at this
      omega
    · rw [string_length_take]; omega
  · next hle =>
    refine ⟨h, by omega⟩

/-- The components of a truthy-key run, via the fold over processed places. -/
theorem handle_state (key : String) (hk : key ≠ "") (pages : Int)
    (net : Nat → HttpResponse) (db0 : List Spot) :
    (handle (some key) pages net db0).db =
      ((loopPlaces net (max 1 pages).toNat 0).foldl (processPlace key)
        ⟨db0, 0, 0⟩).db ∧
    (handle (some key) pages net db0).saved =
      ((loopPlaces net (max 1 pages).toNat 0).foldl (processPlace key)
        ⟨db0, 0, 0⟩).saved ∧
    (handle (some key) pages net db0).skipped =
      ((loopPlaces net (max 1 pages).toNat 0).foldl (processPlace key)
        ⟨db0, 0, 0⟩).skipped := by
  simp [handle, truthyStr, hk, seedLoop_state]

/-- A place carrying only a display name. -/
def samplePlace (nm : String) : Place :=
  ⟨some nm, PyVal.none, PyVal.none, Option.none, PyVal.none, PyVal.none,
    PyVal.none, PyVal.none, PyVal.none, Option.none, [], PyVal.none⟩

/-- The row the seeder builds for `samplePlace nm`. -/
def sampleSpot (nm : String) : Spot :=
  buildSpot "k" (samplePlace nm) nm

/-- A response stream whose every page succeeds with one place, no token. -/
def sampleNet1 : Nat → HttpResponse :=
  fun _ => ⟨200, "", [samplePlace "A"], Option.none⟩

/-- C1: storage writes are insert-if-absent keyed by name: an existing name
is never overwritten and leaves the created flag false; a created flag
means no row with the name existed; a place whose truncated name is already
stored leaves the whole state unchanged; and a second run over the same
response stream starting from the first run's rows creates zero records and
leaves the rows as they were. -/
theorem c1_insert_if_absent (key : String) (pages : Int)
    (net : Nat → HttpResponse) (db0 db : List Spot) (s : Spot)
    (st : SeedState) (p : Place) :
    ((∃ r ∈ db, r.name = s.name) → get_or_create db s = (db, false)) ∧
    ((get_or_create db s).2 = true → ∀ r ∈ db, r.name ≠ s.name) ∧
    (placeName p ≠ "" → (∃ r ∈ st.db, r.name = truncName (placeName p)) →
      processPlace key st p = st) ∧
    ((handle (some key) pages net
        (handle (some key) pages net db0).db).saved = 0 ∧
      (handle (some key) pages net
        (handle (some key) pages net db0).db).db =
        (handle (some key) pages net db0).db) := by
  refine ⟨?_, ?_, ?_, ?_⟩
  · intro ⟨r, hr, hname⟩
    exact get_or_create_hit db s
      (List.any_eq_true.mpr ⟨r, hr, by simp [hname]⟩)
  · intro hcreated r hr hname
    by_cases ha : db.any (fun r => r.name = s.name)
    · rw [get_or_create_hit db s ha] at hcreated; cases hcreated
    · have hb : db.any (fun r => r.name = s.name) = true :=
        List.any_eq_true.mpr ⟨r, hr, by simp [hname]⟩
      exact ha hb
  · intro hn ⟨r, hr, hname⟩
    exact processPlace_existing key st p hn
      (List.any_eq_true.mpr ⟨r, hr, by simp [hname]⟩)
  · by_cases hk : key = ""
    · subst hk
      simp [handle, truthyStr]
    · have h1 := handle_state key hk pages net db0
      have h2 := handle_state key hk pages net
        (handle (some key) pages net db0).db
      have hidem := foldl_idem key (loopPlaces net (max 1 pages).toNat 0) db0
      rw [h2.2.1, h2.1, h1.1]
      exact ⟨hidem.2, hidem.1⟩

/-- C1 witness: a present name is not re-inserted, and a concrete second
run over the same stream creates zero records. -/
theorem c1_insert_if_absent_witness :
    get_or_create [sampleSpot "A"] (sampleSpot "A") = ([sampleSpot "A"], false) ∧
    (handle (some "k") 1 sampleNet1
      (handle (some "k") 1 sampleNet1 []).db).saved = 0 := by
  have h := c1_insert_if_absent "k" 1 sampleNet1 [] [sampleSpot "A"]
    (sampleSpot "A") ⟨[sampleSpot "A"], 0, 0⟩ (samplePlace "A")
  exact ⟨h.1 ⟨sampleSpot "A", by simp, rfl⟩, h.2.2.2.1⟩

/-- C7: a place with an empty or missing display name bumps the skip
counter, creates no row, and processing continues with the remaining
places. -/
theorem c7_skip_empty_name (key : String) (st : SeedState) (p : Place)
    (h : placeName p = "") (rest : List Place) :
    processPlace key st p = { st with skipped := st.skipped + 1 } ∧
    (p :: rest).foldl (processPlace key) st =
      rest.foldl (processPlace key) { st with skipped := st.skipped + 1 } := by
  refine ⟨processPlace_skip key st p h, ?_⟩
  rw [List.foldl_cons, processPlace_skip key st p h]

/-- C7 witness: a concrete nameless place is skipped and counted. -/
theorem c7_skip_empty_name_witness :
    processPlace "k" ⟨[], 0, 0⟩ (samplePlace "") = ⟨[], 0, 1⟩ := by
  exact (c7_skip_empty_name "k" ⟨[], 0, 0⟩ (samplePlace "") rfl []).1

/-- C8: without a truthy credential the run reports the configuration
error, issues no request, writes nothing and leaves both counters at
zero. -/
theorem c8_missing_credential (pages : Int) (net : Nat → HttpResponse)
    (db0 : List Spot) :
    handle Option.none pages net db0 =
      ⟨[], 0, db0, 0, 0, [missingKeyError]⟩ ∧
    handle (some "") pages net db0 =
      ⟨[], 0, db0, 0, 0, [missingKeyError]⟩ := by
  exact ⟨rfl, rfl⟩

/-- C10: every row present after a run is either an initial row or carries
a non-empty name of at most 1000 characters. -/
theorem c10_written_names_valid (key : String) (pages : Int)
    (net : Nat → HttpResponse) (db0 : List Spot) (r : Spot)
    (hr : r ∈ (handle (some key) pages net db0).db) :
    r ∈ db0 ∨ (r.name ≠ "" ∧ r.name.length ≤ 1000) := by
  by_cases hk : key = ""
  · subst hk
    simp [handle, truthyStr] at hr
    exact Or.inl hr
  · rw [(handle_state key hk pages net db0).1] at hr
    rcases foldl_rows key _ ⟨db0, 0, 0⟩ r hr with h | ⟨p, _, hn, rfl⟩
    · exact Or.inl h
    · right
      rw [buildSpot_name]
      exact truncName_spec _ hn

/-- C10 witness: the row of a concrete run has a valid name. -/
theorem c10_written_names_valid_witness :
    sampleSpot "A" ∈ [] ∨
      ((sampleSpot "A").name ≠ "" ∧ (sampleSpot "A").name.length ≤ 1000) := by
  exact c10_written_names_valid "k" 1 sampleNet1 [] (sampleSpot "A")
    (by decide)

/-- The address field of a built row, unfolded. -/
theorem buildSpot_address (key : String) (p : Place) (n : String) :
    (buildSpot key p n).address =
      trim (pyOr (pyOr p.formattedAddress p.shortFormattedAddress)
        PyVal.none) 255 := rfl

/-- The phone field of a built row, unfolded. -/
theorem buildSpot_phone (key : String) (p : Place) (n : String) :
    (buildSpot key p n).phone = trim p.nationalPhoneNumber 20 := rfl

/-- The website field of a built row, unfolded. -/
theorem buildSpot_url (key : String) (p : Place) (n : String) :
    (buildSpot key p n).url = trim p.websiteUri 500 := rfl

/-- The external-identifier field of a built row, unfolded. -/
theorem buildSpot_place_id (key : String) (p : Place) (n : String) :
    (buildSpot key p n).place_id = trim p.id 255 := rfl

/-- The latitude field of a built row, unfolded. -/
theorem buildSpot_latitude (key : String) (p : Place) (n : String) :
    (buildSpot key p n).latitude = to_decimal p.location_latitude := rfl

/-- The longitude field of a built row, unfolded. -/
theorem buildSpot_longitude (key : String) (p : Place) (n : String) :
    (buildSpot key p n).longitude = to_decimal p.location_longitude := rfl

/-- `trim` on a non-empty string over the limit cuts to the limit. -/
theorem trim_str_long (s : String) (limit : Nat) (hs : s ≠ "")
    (h : s.length > limit) :
    trim (PyVal.str s) limit = some (s.take limit) := by
  simp [trim, PyVal.truthy, pyStr, hs, h]

/-- `trim` on a non-empty string within the limit is the identity. -/
theorem trim_str_short (s : String) (limit : Nat) (hs : s ≠ "")
    (h : s.length ≤ limit) :
    trim (PyVal.str s) limit = some s := by
  simp [trim, PyVal.truthy, pyStr, hs]
  omega

/-- A non-empty string has positive length. -/
theorem string_length_pos (s : String) (h : s ≠ "") : 0 < s.length := by
  rcases Nat.eq_zero_or_pos s.length with h0 | hp
  · exact absurd (string_eq_empty_of_length h0) h
  · exact hp

/-- C3: a name of length 1200 is stored at exactly 1000 characters, an
address of length 300 at exactly 255, a phone string of length 30 at
exactly 20, and strings within their limits are stored unchanged. -/
theorem c3_truncation (key : String) (st : SeedState) (p : Place)
    (a ph : String)
    (hname : (placeName p).length = 1200)
    (haddr : p.formattedAddress = PyVal.str a) (ha : a.length = 300)
    (hphone : p.nationalPhoneNumber = PyVal.str ph) (hph : ph.length = 30)
    (hfresh : st.db.any (fun r => r.name = truncName (placeName p)) = false) :
    ∃ r : Spot,
      processPlace key st p =
        { st with db := st.db ++ [r], saved := st.saved + 1 } ∧
      r.name = (placeName p).take 1000 ∧ r.name.length = 1000 ∧
      r.address = some (a.take 255) ∧ (a.take 255).length = 255 ∧
      r.phone = some (ph.take 20) ∧ (ph.take 20).length = 20 ∧
      (∀ a2 : String, a2 ≠ "" → a2.length ≤ 255 →
        trim (PyVal.str a2) 255 = some a2) ∧
      (∀ p2 : String, p2 ≠ "" → p2.length ≤ 20 →
        trim (PyVal.str p2) 20 = some p2) ∧
      (∀ s2 : String, s2.length ≤ 1000 → truncName s2 = s2) := by
  have hn : placeName p ≠ "" := by
    intro he; rw [he] at hname; exact absurd hname (by decide)
  have ha' : a ≠ "" := by
    intro he; rw [he] at ha; exact absurd ha (by decide)
  have hph' : ph ≠ "" := by
    intro he; rw [he] at hph; exact absurd hph (by decide)
  have htrunc : truncName (placeName p) = (placeName p).take 1000 := by
    unfold truncName
    rw [if_pos (by omega)]
  refine ⟨buildSpot key p (truncName (placeName p)),
    processPlace_fresh key st p hn hfresh, ?_, ?_, ?_, ?_, ?_, ?_, ?_, ?_, ?_⟩
  · rw [buildSpot_name, htrunc]
  · rw [buildSpot_name, htrunc, string_length_take, hname]
    omega
  · rw [buildSpot_address, haddr]
    have h1 : pyOr (PyVal.str a) p.shortFormattedAddress = PyVal.str a := by
      simp [pyOr, PyVal.truthy, ha']
    have h2 : pyOr (PyVal.str a) PyVal.none = PyVal.str a := by
      simp [pyOr, PyVal.truthy, ha']
    rw [h1, h2]
    exact trim_str_long a 255 ha' (by omega)
  · rw [string_length_take, ha]
    omega
  · rw [buildSpot_phone, hphone]
    exact trim_str_long ph 20 hph' (by omega)
  · rw [string_length_take, hph]
    omega
  · exact fun a2 h1 h2 => trim_str_short a2 255 h1 h2
  · exact fun p2 h1 h2 => trim_str_short p2 20 h1 h2
  · intro s2 h2
    unfold truncName
    rw [if_neg (by omega)]

/-- A display name of exactly 1200 repeated characters. -/
def longName : String := String.mk (List.replicate 1200 'n')

/-- An address of exactly 300 repeated characters. -/
def longAddress : String := String.mk (List.replicate 300 'a')

/-- A phone string of exactly 30 repeated characters. -/
def longPhone : String := String.mk (List.replicate 30 '5')

/-- A place carrying the three over-limit string fields. -/
def samplePlaceLong : Place :=
  ⟨some longName, PyVal.str longAddress, PyVal.none, Option.none,
    PyVal.none, PyVal.none, PyVal.str longPhone, PyVal.none, PyVal.none,
    Option.none, [], PyVal.none⟩

/-- The empty starting state. -/
def stEmpty : SeedState := ⟨[], 0, 0⟩

/-- C3 witness: the concrete over-limit place is stored truncated. -/
theorem c3_truncation_witness :
    ∃ r : Spot,
      processPlace "k" stEmpty samplePlaceLong =
        { stEmpty with db := stEmpty.db ++ [r],
                       saved := stEmpty.saved + 1 } ∧
      r.name = (placeName samplePlaceLong).take 1000 ∧
      r.name.length = 1000 ∧
      r.address = some (longAddress.take 255) ∧
      (longAddress.take 255).length = 255 ∧
      r.phone = some (longPhone.take 20) ∧ (longPhone.take 20).length = 20 ∧
      (∀ a2 : String, a2 ≠ "" → a2.length ≤ 255 →
        trim (PyVal.str a2) 255 = some a2) ∧
      (∀ p2 : String, p2 ≠ "" → p2.length ≤ 20 →
        trim (PyVal.str p2) 20 = some p2) ∧
      (∀ s2 : String, s2.length ≤ 1000 → truncName s2 = s2) := by
  exact c3_truncation "k" stEmpty samplePlaceLong longAddress longPhone
    (List.length_replicate 1200 'n')
    rfl (List.length_replicate 300 'a')
    rfl (List.length_replicate 30 '5') rfl

/-- A place whose location fields carry an unparsable string. -/
def samplePlaceBadLoc : Place :=
  ⟨some "A", PyVal.none, PyVal.none, Option.none,
    PyVal.str "not-a-number", PyVal.str "not-a-number", PyVal.none,
    PyVal.none, PyVal.none, Option.none, [], PyVal.none⟩

/-- C4: the numeric coercion turns an unparsable value into an absent one
instead of failing, and the record is still written, its latitude and
longitude being whatever the coercion yields. -/
theorem c4_defensive_coercion (key : String) (st : SeedState) (p : Place)
    (hname : placeName p ≠ "")
    (hfresh : st.db.any (fun r => r.name = truncName (placeName p)) = false) :
    to_decimal (PyVal.str "not-a-number") = Option.none ∧
    ∃ r : Spot,
      processPlace key st p =
        { st with db := st.db ++ [r], saved := st.saved + 1 } ∧
      r.latitude = to_decimal p.location_latitude ∧
      r.longitude = to_decimal p.location_longitude ∧
      (p.location_latitude = PyVal.str "not-a-number" →
        r.latitude = Option.none) ∧
      (p.location_longitude = PyVal.str "not-a-number" →
        r.longitude = Option.none) := by
  refine ⟨by decide, buildSpot key p (truncName (placeName p)),
    processPlace_fresh key st p hname hfresh,
    buildSpot_latitude key p _, buildSpot_longitude key p _, ?_, ?_⟩
  · intro h
    rw [buildSpot_latitude, h]
    decide
  · intro h
    rw [buildSpot_longitude, h]
    decide

/-- C4 witness: the concrete unparsable place is still written, with both
coordinates absent. -/
theorem c4_defensive_coercion_witness :
    to_decimal (PyVal.str "not-a-number") = Option.none ∧
    ∃ r : Spot,
      processPlace "k" stEmpty samplePlaceBadLoc =
        { stEmpty with db := stEmpty.db ++ [r],
                       saved := stEmpty.saved + 1 } ∧
      r.latitude = to_decimal samplePlaceBadLoc.location_latitude ∧
      r.longitude = to_decimal samplePlaceBadLoc.location_longitude ∧
      (samplePlaceBadLoc.location_latitude = PyVal.str "not-a-number" →
        r.latitude = Option.none) ∧
      (samplePlaceBadLoc.location_longitude = PyVal.str "not-a-number" →
        r.longitude = Option.none) := by
  exact c4_defensive_coercion "k" stEmpty samplePlaceBadLoc (by decide) rfl

/-- A place whose optional string fields are all present but empty. -/
def samplePlaceEmptyFields : Place :=
  ⟨some "A", PyVal.str "", PyVal.str "", Option.none, PyVal.none,
    PyVal.none, PyVal.str "", PyVal.str "", PyVal.none, Option.none, [],
    PyVal.str ""⟩

/-- C9: `trim` sends every falsy input to an absent value (it is a total
Lean function, so it cannot raise), coerces through `str` before cutting,
and hence empty-string address, phone, website and place identifier fields
are persisted as absent. -/
theorem c9_trim_falsy (limit : Nat) (v : PyVal) (key : String) (p : Place)
    (nm : String) :
    trim PyVal.none limit = Option.none ∧
    trim (PyVal.str "") limit = Option.none ∧
    trim (PyVal.int 0) limit = Option.none ∧
    (v.truthy = false → trim v limit = Option.none) ∧
    (v.truthy = true → trim v limit =
      some (if (pyStr v).length > limit then (pyStr v).take limit
            else pyStr v)) ∧
    (p.formattedAddress = PyVal.str "" →
      p.shortFormattedAddress = PyVal.str "" →
      (buildSpot key p nm).address = Option.none) ∧
    (p.nationalPhoneNumber = PyVal.str "" →
      (buildSpot key p nm).phone = Option.none) ∧
    (p.websiteUri = PyVal.str "" → (buildSpot key p nm).url = Option.none) ∧
    (p.id = PyVal.str "" → (buildSpot key p nm).place_id = Option.none) := by
  refine ⟨rfl, rfl, rfl, ?_, ?_, ?_, ?_, ?_, ?_⟩
  · intro h; simp [trim, h]
  · intro h; simp [trim, h]
  · intro h1 h2
    rw [buildSpot_address, h1, h2]
    rfl
  · intro h; rw [buildSpot_phone, h]; rfl
  · intro h; rw [buildSpot_url, h]; rfl
  · intro h; rw [buildSpot_place_id, h]; rfl

/-- C9 witness: the concrete empty-string fields are persisted absent. -/
theorem c9_trim_falsy_witness :
    trim PyVal.none 20 = Option.none ∧
    (buildSpot "k" samplePlaceEmptyFields "A").address = Option.none ∧
    (buildSpot "k" samplePlaceEmptyFields "A").phone = Option.none ∧
    (buildSpot "k" samplePlaceEmptyFields "A").url = Option.none ∧
    (buildSpot "k" samplePlaceEmptyFields "A").place_id = Option.none := by
  have h := c9_trim_falsy 20 (PyVal.int 0) "k" samplePlaceEmptyFields "A"
  exact ⟨h.1, h.2.2.2.2.2.1 rfl rfl, h.2.2.2.2.2.2.1 rfl,
    h.2.2.2.2.2.2.2.1 rfl, h.2.2.2.2.2.2.2.2 rfl⟩

/-- The city derivation exactly as the claim words it: the preferred name
of the first component whose type set includes "locality" (whether or not
that component has a name), else of the first component typed
"administrative_area_level_1", else absent. -/
def pick_city_claimed (ac : Option (List AddressComponent)) : Option String :=
  match ac with
  | Option.none => Option.none
  | some comps =>
    match comps.find? (fun c => "locality" ∈ c.types) with
    | some c => compName c
    | Option.none =>
      match comps.find?
          (fun c => "administrative_area_level_1" ∈ c.types) with
      | some c => compName c
      | Option.none => Option.none

/-- The amended city derivation: as claimed, but a component only counts
when its preferred name is also non-empty. -/
def pick_city_amended (ac : Option (List AddressComponent)) : Option String :=
  match ac with
  | Option.none => Option.none
  | some comps =>
    match comps.find?
        (fun c => "locality" ∈ c.types && truthyStr (compName c)) with
    | some c => compName c
    | Option.none =>
      match comps.find? (fun c =>
          "administrative_area_level_1" ∈ c.types &&
            truthyStr (compName c)) with
      | some c => compName c
      | Option.none => Option.none

/-- A nameless locality followed by a named administrative area. -/
def cityCounterexampleInput : List AddressComponent :=
  [⟨["locality"], Option.none, Option.none⟩,
   ⟨["administrative_area_level_1"], some "Taipei", Option.none⟩]

/-- C2 counterexample: on a list whose first locality component has no
name, the code falls through to a later pass and returns the
administrative-area name, while the claim as stated yields an absent city
(the first locality component wins and its preferred name is absent). -/
theorem c2_city_derivation_counterexample :
    pick_city (some cityCounterexampleInput) = some "Taipei" ∧
    pick_city_claimed (some cityCounterexampleInput) = Option.none ∧
    pick_city (some cityCounterexampleInput) ≠
      pick_city_claimed (some cityCounterexampleInput) := by
  refine ⟨by decide, by decide, by decide⟩

/-- A truthy optional string is a non-empty string. -/
theorem truthyStr_some {o : Option String} (h : truthyStr o = true) :
    ∃ s, o = some s ∧ s ≠ "" := by
  cases o with
  | none => cases h
  | some s => exact ⟨s, rfl, by simpa [truthyStr] using h⟩

/-- A `pick_city` scan is the first-match search under the same predicate. -/
theorem scanFor_eq_find (t : String) :
    ∀ l : List AddressComponent,
    scanFor t l =
      match l.find? (fun c => t ∈ c.types && truthyStr (compName c)) with
      | some c => compName c
      | Option.none => Option.none := by
  intro l
  induction l with
  | nil => rfl
  | cons c rest ih =>
    rw [scanFor, List.find?_cons]
    by_cases h : (decide (t ∈ c.types) && truthyStr (compName c)) = true
    · simp [h]
    · simp [h, ih]

/-- C2 amended: the city is the preferred name (long form, else short
form) of the first component whose type set includes "locality" and whose
preferred name is non-empty; failing that, of the first such component
typed "administrative_area_level_1"; failing both, absent. -/
theorem c2_city_derivation (ac : Option (List AddressComponent)) :
    pick_city ac = pick_city_amended ac := by
  cases ac with
  | none => rfl
  | some comps =>
    cases comps with
    | nil => rfl
    | cons c0 rest =>
      show pick_city (some (c0 :: rest)) = pick_city_amended (some (c0 :: rest))
      simp only [pick_city, pick_city_amended]
      rw [if_neg (by simp), scanFor_eq_find, scanFor_eq_find]
      cases hf : (c0 :: rest).find?
          (fun c => "locality" ∈ c.types && truthyStr (compName c)) with
      | none => rfl
      | some c =>
        have hp := List.find?_some hf
        have htr : truthyStr (compName c) = true := by
          simp only [Bool.and_eq_true] at hp
          exact hp.2
        obtain ⟨s, hs, _⟩ := truthyStr_some htr
        simp [hs]

/-- Package a loop outcome as a run outcome. -/
def loopToRun (out : LoopOut) : RunResult :=
  ⟨out.requests, out.sleeps, out.state.db, out.state.saved,
    out.state.skipped, out.errors⟩

/-- A truthy-key run is the page loop over `max(1, pages)` iterations. -/
theorem handle_eq_loop (key : String) (hk : key ≠ "") (pages : Int)
    (net : Nat → HttpResponse) (db0 : List Spot) :
    handle (some key) pages net db0 =
      loopToRun (seedLoop key net (max 1 pages).toNat 0 Option.none
        Option.none ⟨db0, 0, 0⟩) := by
  simp [handle, loopToRun, truthyStr, hk]

/-- The iteration budget is always at least one. -/
theorem fuel_pos (pages : Int) : ∃ m, (max 1 pages).toNat = m + 1 := by
  have h1 : 1 ≤ max 1 pages := le_max_left 1 pages
  exact ⟨(max 1 pages).toNat - 1, by omega⟩

/-- C5: a non-200 search response aborts the run at once, reporting the
status and the body cut to 300 characters; a failure on the first page
leaves zero created rows and the database as it was, and a failure on the
second page retains exactly the rows and counters from the first page. -/
theorem c5_upstream_failure (key : String) (hk : key ≠ "") (pages : Int)
    (net : Nat → HttpResponse) (db0 : List Spot) :
    ((net 0).status_code ≠ 200 →
      handle (some key) pages net db0 =
        ⟨[⟨Option.none⟩], 0, db0, 0, 0,
          ["API 錯誤 " ++ toString (net 0).status_code ++ ": " ++
            (net 0).text.take 300]⟩) ∧
    ((net 0).status_code = 200 → truthyStr (net 0).nextPageToken = true →
      (net 1).status_code ≠ 200 →
      handle (some key) 2 net db0 =
        ⟨[⟨Option.none⟩, ⟨(net 0).nextPageToken⟩], 1,
          ((net 0).places.foldl (processPlace key) ⟨db0, 0, 0⟩).db,
          ((net 0).places.foldl (processPlace key) ⟨db0, 0, 0⟩).saved,
          ((net 0).places.foldl (processPlace key) ⟨db0, 0, 0⟩).skipped,
          ["API 錯誤 " ++ toString (net 1).status_code ++ ": " ++
            (net 1).text.take 300]⟩) := by
  constructor
  · intro h
    obtain ⟨m, hm⟩ := fuel_pos pages
    rw [handle_eq_loop key hk pages net db0, hm, seedLoop]
    simp [h, loopToRun]
  · intro h0 ht h1
    rw [handle_eq_loop key hk 2 net db0]
    have hm : (max 1 (2 : Int)).toNat = 2 := rfl
    rw [hm, seedLoop]
    simp only [h0, ne_eq, not_true_eq_false, if_false, ite_false,
      ite_not, if_pos, ht]
    rw [seedLoop]
    simp [h0, ht, h1, loopToRun]

/-- A response stream that always fails with status 500. -/
def sampleNetFail : Nat → HttpResponse :=
  fun _ => ⟨500, "boom", [], Option.none⟩

/-- A stream whose first page succeeds with a token and second page fails. -/
def sampleNetPage2Fail : Nat → HttpResponse :=
  fun idx =>
    if idx = 0 then ⟨200, "", [samplePlace "A"], some "tok"⟩
    else ⟨500, "boom", [], Option.none⟩

/-- C5 witness: the two concrete failing runs behave as stated. -/
theorem c5_upstream_failure_witness :
    handle (some "k") 1 sampleNetFail [] =
      ⟨[⟨Option.none⟩], 0, [], 0, 0,
        ["API 錯誤 " ++ toString (sampleNetFail 0).status_code ++ ": " ++
          (sampleNetFail 0).text.take 300]⟩ ∧
    handle (some "k") 2 sampleNetPage2Fail [] =
      ⟨[⟨Option.none⟩, ⟨(sampleNetPage2Fail 0).nextPageToken⟩], 1,
        ((sampleNetPage2Fail 0).places.foldl (processPlace "k")
          ⟨[], 0, 0⟩).db,
        ((sampleNetPage2Fail 0).places.foldl (processPlace "k")
          ⟨[], 0, 0⟩).saved,
        ((sampleNetPage2Fail 0).places.foldl (processPlace "k")
          ⟨[], 0, 0⟩).skipped,
        ["API 錯誤 " ++ toString (sampleNetPage2Fail 1).status_code ++ ": " ++
          (sampleNetPage2Fail 1).text.take 300]⟩ := by
  exact ⟨(c5_upstream_failure "k" (by decide) 1 sampleNetFail []).1
      (by decide),
    (c5_upstream_failure "k" (by decide) 2 sampleNetPage2Fail []).2
      (by decide) (by decide) (by decide)⟩

/-- A response stream that always succeeds carrying a continuation token. -/
def sampleNetTok : Nat → HttpResponse :=
  fun _ => ⟨200, "", [], some "tok"⟩

/-- C6 counterexample: with a page budget of 1 and a token-carrying
response, no second call is issued — no pages remain in the budget — yet
the 2-unit delay is still taken once, so the delay is not taken "only when
more pages remain in the budget". -/
theorem c6_pagination_counterexample :
    (handle (some "k") 1 sampleNetTok []).requests.length = 1 ∧
    (handle (some "k") 1 sampleNetTok []).sleeps = 1 := by
  exact ⟨rfl, rfl⟩

/-- C6 amended: with a budget of 2 and a successful token-carrying first
response, the second call carries the token; with a budget of 1 only one
call is issued; and the fixed delay is taken exactly when the (successful)
response carries a continuation token, even when no pages remain in the
budget. -/
theorem c6_pagination_amended (key : String) (hk : key ≠ "")
    (net : Nat → HttpResponse) (db0 : List Spot) (t : String) (ht : t ≠ "") :
    ((net 0).status_code = 200 → (net 0).nextPageToken = some t →
      (handle (some key) 2 net db0).requests =
        [⟨Option.none⟩, ⟨some t⟩]) ∧
    ((handle (some key) 1 net db0).requests = [⟨Option.none⟩]) ∧
    ((handle (some key) 1 net db0).sleeps =
      if (net 0).status_code = 200 ∧ truthyStr (net 0).nextPageToken = true
      then 1 else 0) := by
  refine ⟨?_, ?_, ?_⟩
  · intro h0 htok
    rw [handle_eq_loop key hk 2 net db0]
    have hm : (max 1 (2 : Int)).toNat = 2 := rfl
    rw [hm, seedLoop]
    have htt : truthyStr (net 0).nextPageToken = true := by
      rw [htok]; simpa [truthyStr] using ht
    have hts : truthyStr (some t) = true := by
      simpa [truthyStr] using ht
    simp only [h0, ne_eq, not_true_eq_false, if_false, ite_false,
      ite_not, htt]
    rw [seedLoop]
    by_cases h1 : (net 1).status_code = 200
    · by_cases ht1 : truthyStr (net 1).nextPageToken = true
      · simp [h0, htt, hts, htok, h1, ht1, loopToRun, seedLoop]
      · simp [h0, htt, hts, htok, h1, ht1, loopToRun]
    · simp [h0, htt, hts, htok, h1, loopToRun]
  · rw [handle_eq_loop key hk 1 net db0]
    have hm : (max 1 (1 : Int)).toNat = 1 := rfl
    rw [hm, seedLoop]
    by_cases h0 : (net 0).status_code = 200
    · by_cases ht0 : truthyStr (net 0).nextPageToken = true
      · simp [h0, ht0, loopToRun, seedLoop]
      · simp [h0, ht0, loopToRun]
    · simp [h0, loopToRun]
  · rw [handle_eq_loop key hk 1 net db0]
    have hm : (max 1 (1 : Int)).toNat = 1 := rfl
    rw [hm, seedLoop]
    by_cases h0 : (net 0).status_code = 200
    · by_cases ht0 : truthyStr (net 0).nextPageToken = true
      · simp [h0, ht0, loopToRun, seedLoop]
      · simp [h0, ht0, loopToRun]
    · simp [h0, loopToRun]

/-- C6 witness: the concrete token-carrying stream issues the second call
with the token under budget 2, a single call under budget 1, and takes the
delay on the token-carrying final page. -/
theorem c6_pagination_amended_witness :
    (handle (some "k") 2 sampleNetTok []).requests =
      [⟨Option.none⟩, ⟨some "tok"⟩] ∧
    (handle (some "k") 1 sampleNetTok []).requests = [⟨Option.none⟩] ∧
    (handle (some "k") 1 sampleNetTok []).sleeps =
      (if (sampleNetTok 0).status_code = 200 ∧
          truthyStr (sampleNetTok 0).nextPageToken = true
       then 1 else 0) := by
  have h := c6_pagination_amended "k" (by decide) sampleNetTok [] "tok"
    (by decide)
  exact ⟨h.1 rfl rfl, h.2.1, h.2.2⟩

end Seed

